import Mathlib

/-!
# Verification of the hierarchical todo-list core

Shallow embedding of the task-tree model, the completion-cascade engine and
the client sync reconciler of the `hierarchichal-todo-list` repository
(frontend `src/pages/Dashboard.jsx`; the backend cascade engine is modelled
from the specification, as noted on each definition), together with proofs
and refutations of the specified properties.
-/

namespace Todo

/-- A task as delivered by the API and held by the client: an id, a free-form
description, a completion flag and an ordered list of nested subtasks
(arbitrary depth).  Mirrors the JSON shape consumed by `Dashboard.jsx`
(`task.id`, `task.description`, `task.completed`, `task.subtasks`). -/
structure Task where
  id : Nat
  description : String
  completed : Bool
  subtasks : List Task
deriving Repr

/-- Number of tasks in a forest, descendants included. -/
def sizeForest : List Task → Nat
  | [] => 0
  | Task.mk _ _ _ subs :: ts => 1 + sizeForest subs + sizeForest ts

/-- Depth-first (pre-order) flattening of a forest: each task before its
descendants, children in insertion order, then the following siblings. -/
def preorderForest : List Task → List Task
  | [] => []
  | Task.mk i d c subs :: ts =>
      Task.mk i d c subs :: (preorderForest subs ++ preorderForest ts)

/-- `findTaskInList` from `Dashboard.jsx` (selection-sync effect), generalised
over the searched id: walk the tasks in order; return a task as soon as its id
matches, otherwise search its subtasks recursively, then the remaining
siblings; return `none` when nothing matches.  (The JS guard
`task.subtasks && task.subtasks.length > 0` is redundant here because the
recursive call on `[]` returns `none`.) -/
def findTaskInList (tid : Nat) : List Task → Option Task
  | [] => none
  | Task.mk i d c subs :: ts =>
      if i = tid then some (Task.mk i d c subs)
      else
        match findTaskInList tid subs with
        | some found => some found
        | none => findTaskInList tid ts

/-- `findTaskInList` is exactly the first-match search over the depth-first
pre-order flattening of the forest. -/
theorem findTaskInList_eq_find?_preorder (tid : Nat) (forest : List Task) :
    findTaskInList tid forest = (preorderForest forest).find? (fun t => t.id == tid) := by
  induction forest using findTaskInList.induct tid with
  | case1 => simp [findTaskInList, preorderForest]
  | case2 d c subs ts =>
      rw [preorderForest, List.find?_cons_of_pos _ (by simp)]
      simp [findTaskInList]
  | case3 i d c subs ts h found hsubs ih =>
      simp only [findTaskInList, preorderForest, if_neg h, hsubs]
      rw [List.find?_cons_of_neg _ (by simp [h]), List.find?_append, ← ih, hsubs]
      rfl
  | case4 i d c subs ts h hsubs ih1 ih2 =>
      simp only [findTaskInList, preorderForest, if_neg h, hsubs]
      rw [List.find?_cons_of_neg _ (by simp [h]), List.find?_append, ← ih1, hsubs, ← ih2]
      rfl

/-- C5: `findTaskById` (the generalised `findTaskInList` of `Dashboard.jsx`)
is a depth-first search visiting each task before its descendants, in child
order: it returns the first task of the pre-order traversal whose id matches,
and it returns the not-found sentinel `none` exactly when no task in the
forest carries the searched id (it is a total function — it never throws). -/
theorem C5_findTaskById_dfs_first_match (tid : Nat) (forest : List Task) :
    findTaskInList tid forest = (preorderForest forest).find? (fun t => t.id == tid) ∧
    (findTaskInList tid forest = none ↔ ∀ t ∈ preorderForest forest, t.id ≠ tid) := by
  refine ⟨findTaskInList_eq_find?_preorder tid forest, ?_⟩
  rw [findTaskInList_eq_find?_preorder, List.find?_eq_none]
  simp

/-! ## The completion-cascade engine (spec §4.2)

The engine itself lives in the backend (`backend/models.py` /
`backend/routes.py`), which is not among the available source files — only
its tests' documentation and its frontend caller are.  The definitions below
are therefore modelled from the specification's algorithm. -/

/-- Modelled from the spec: the downward propagation of
`toggleCompletion` (backend cascade, `backend/models.py` missing from the
sources) — "recursively force every descendant's `completed` to `true`,
unconditionally, regardless of their own children's state". -/
def forceTrueForest : List Task → List Task
  | [] => []
  | Task.mk i d _ subs :: ts =>
      Task.mk i d true (forceTrueForest subs) :: forceTrueForest ts

/-- Modelled from the spec: one step of the upward re-derivation (§4.2 step
3) at the ancestor `Task.mk i d c _` whose rewritten children are `subs'`,
with `ch` the pairs emitted below and `act` whether the walk is still
active.  While active: all children completed forces the flag to true, a
previously-true flag with some child now false becomes false, and an
unchanged computed value stops the walk without emitting; a changed value is
appended to the emitted pairs and the walk continues. -/
def toggleStepUp (i : Nat) (d : String) (c : Bool) (subs' ts : List Task)
    (ch : List (Nat × Bool)) (act : Bool) :
    List Task × List (Nat × Bool) × Bool :=
  if act then
    let newFlag :=
      if subs'.all (fun x => x.completed) then true
      else if c && subs'.any (fun x => !x.completed) then false
      else c
    if newFlag = c then (Task.mk i d c subs' :: ts, ch, false)
    else (Task.mk i d newFlag subs' :: ts, ch ++ [(i, newFlag)], true)
  else (Task.mk i d c subs' :: ts, ch, false)

/-- Modelled from the spec: the core of `toggleCompletion`
(backend cascade engine, `backend/models.py` missing from the sources),
§4.2 steps 1–4, acting on the subforest that contains the target.  Returns
`none` when the target id does not occur; otherwise the rewritten forest,
the emitted `(taskId, newCompletedValue)` pairs and whether the upward walk
is still active above this level.

* Target found (step 1): set `completed := newValue`; when `cascade` and
  `newValue` are both true (step 2) force the whole subtree to `true` and
  emit a pair for the target and every descendant, unconditionally; the
  upward walk (step 3) starts at the parent.
* At each ancestor on the walk the re-derivation is `toggleStepUp`. -/
def toggleForest (target : Nat) (v casc : Bool) :
    List Task → Option (List Task × List (Nat × Bool) × Bool)
  | [] => none
  | Task.mk i d c subs :: ts =>
      if i = target then
        if casc && v then
          some (Task.mk i d true (forceTrueForest subs) :: ts,
            (preorderForest [Task.mk i d c subs]).map (fun x => (x.id, true)), true)
        else
          some (Task.mk i d v subs :: ts, [(i, v)], true)
      else
        match toggleForest target v casc subs with
        | some (subs', ch, act) => some (toggleStepUp i d c subs' ts ch act)
        | none =>
            match toggleForest target v casc ts with
            | some (ts', ch, act) => some (Task.mk i d c subs :: ts', ch, act)
            | none => none

/-- Modelled from the spec: `toggleCompletion(task, newValue, cascade)` as a
pure function from the forest snapshot, the target id, the new value and the
cascade flag to the new forest plus the emitted changed-pair list (spec
§4.2).  A target id that no longer exists is a no-op (spec §5: a toggle on a
concurrently deleted task is a no-op failure, not a crash). -/
def toggleCompletion (forest : List Task) (target : Nat) (v casc : Bool) :
    List Task × List (Nat × Bool) :=
  match toggleForest target v casc forest with
  | some (f, ch, _) => (f, ch)
  | none => (forest, [])

/-- A sequence of `toggleCompletion` calls with `cascade = true`, applied in
order. -/
def applyToggles (forest : List Task) : List (Nat × Bool) → List Task
  | [] => forest
  | (t, v) :: ops => applyToggles (toggleCompletion forest t v true).1 ops

/-- The downward half of the completion invariant, for every task of the
forest: a completed task has all of its direct children completed. -/
def forestInv : List Task → Bool
  | [] => true
  | Task.mk _ _ c subs :: ts =>
      (!c || subs.all (fun x => x.completed)) && forestInv subs && forestInv ts

/-- The full completion invariant exactly as claimed: every task that has at
least one child satisfies `completed = (all direct children completed)`,
throughout the forest. -/
def forestFullInv : List Task → Bool
  | [] => true
  | Task.mk _ _ c subs :: ts =>
      (subs.isEmpty || (c == subs.all (fun x => x.completed)))
        && forestFullInv subs && forestFullInv ts

/-- Every task of a forced-true forest is completed. -/
theorem forceTrueForest_all_completed (ts : List Task) :
    (forceTrueForest ts).all (fun x => x.completed) = true := by
  induction ts using forceTrueForest.induct with
  | case1 => simp [forceTrueForest]
  | case2 i d c subs ts ih1 ih2 => simp [forceTrueForest, ih2]

/-- A forced-true forest satisfies the downward completion invariant. -/
theorem forestInv_forceTrueForest (ts : List Task) :
    forestInv (forceTrueForest ts) = true := by
  induction ts using forceTrueForest.induct with
  | case1 => simp [forceTrueForest, forestInv]
  | case2 i d c subs ts ih1 ih2 =>
      simp [forceTrueForest, forestInv, ih1, ih2, forceTrueForest_all_completed]

/-- Two lists with the same image under a predicate agree on `all`. -/
theorem all_congr_of_map_eq {α : Type} (p : α → Bool) (l l' : List α)
    (h : l.map p = l'.map p) : l.all p = l'.all p := by
  induction l generalizing l' with
  | nil => cases l' with
    | nil => rfl
    | cons y ys => simp at h
  | cons x xs ih =>
      cases l' with
      | nil => simp at h
      | cons y ys =>
          simp only [List.map_cons, List.cons.injEq] at h
          simp [List.all_cons, h.1, ih ys h.2]

/-- A forest in which not every task is completed has a task that is not
completed. -/
theorem any_not_completed_of_all_false (l : List Task)
    (h : ¬l.all (fun x => x.completed) = true) :
    l.any (fun x => !x.completed) = true := by
  have h' : l.all (fun x => x.completed) = false := by
    cases hb : l.all (fun x => x.completed) with
    | true => exact absurd hb h
    | false => rfl
  rw [List.all_eq_false] at h'
  obtain ⟨x, hx, hpx⟩ := h'
  rw [List.any_eq_true]
  refine ⟨x, hx, ?_⟩
  simp only [Bool.not_eq_true] at hpx ⊢
  simp [hpx]

/-- When the upward walk has stopped, `toggleStepUp` leaves every top-level
completion flag as it was. -/
theorem toggleStepUp_stopped_map (i : Nat) (d : String) (c : Bool)
    (subs' ts : List Task) (ch : List (Nat × Bool)) (act : Bool)
    (h : (toggleStepUp i d c subs' ts ch act).2.2 = false) :
    (toggleStepUp i d c subs' ts ch act).1.map (fun x => x.completed)
      = c :: ts.map (fun x => x.completed) := by
  cases act with
  | false => simp [toggleStepUp]
  | true =>
      by_cases hall : subs'.all (fun x => x.completed) = true
      · cases c with
        | true => simp [toggleStepUp, hall]
        | false => simp [toggleStepUp, hall] at h
      · have hany := any_not_completed_of_all_false subs' hall
        cases c with
        | true => simp [toggleStepUp, hall, hany] at h
        | false => simp [toggleStepUp, hall, hany]

/-- `toggleStepUp` preserves the downward completion invariant: the children
are assumed sound, the siblings untouched, and when the walk is inactive the
old flag is assumed consistent with the (then unchanged) children. -/
theorem toggleStepUp_inv (i : Nat) (d : String) (c : Bool)
    (subs' ts : List Task) (ch : List (Nat × Bool)) (act : Bool)
    (hsubs' : forestInv subs' = true) (hts : forestInv ts = true)
    (hstop : act = false → (!c || subs'.all (fun x => x.completed)) = true) :
    forestInv (toggleStepUp i d c subs' ts ch act).1 = true := by
  cases act with
  | false => simp [toggleStepUp, forestInv, hsubs', hts, hstop rfl]
  | true =>
      by_cases hall : subs'.all (fun x => x.completed) = true
      · cases c with
        | true => simp [toggleStepUp, hall, forestInv, hsubs', hts]
        | false => simp [toggleStepUp, hall, forestInv, hsubs', hts]
      · have hany := any_not_completed_of_all_false subs' hall
        cases c with
        | true => simp [toggleStepUp, hall, hany, forestInv, hsubs', hts]
        | false => simp [toggleStepUp, hall, hany, forestInv, hsubs', hts]

/-- `toggleForest` with `cascade = true` preserves the downward completion
invariant, and whenever it reports the upward walk as stopped the top-level
completion flags are unchanged. -/
theorem toggleForest_preserves_forestInv (target : Nat) (v : Bool)
    (ts : List Task) :
    ∀ ts' ch act, toggleForest target v true ts = some (ts', ch, act) →
      (forestInv ts = true → forestInv ts' = true) ∧
      (act = false →
        ts'.map (fun x => x.completed) = ts.map (fun x => x.completed)) := by
  induction ts using toggleForest.induct target v true with
  | case1 => intro ts' ch act h; simp [toggleForest] at h
  | case2 d c subs ts hcv =>
      intro ts' ch act h
      rw [toggleForest, if_pos rfl, if_pos hcv] at h
      simp only [Option.some.injEq, Prod.mk.injEq] at h
      obtain ⟨h1, h2, h3⟩ := h
      refine ⟨?_, ?_⟩
      · intro hinv
        rw [← h1]
        simp only [forestInv, Bool.and_eq_true] at hinv
        simp [forestInv, forestInv_forceTrueForest, forceTrueForest_all_completed,
          hinv.2]
      · intro hact; rw [← h3] at hact; simp at hact
  | case3 d c subs ts hcv =>
      intro ts' ch act h
      rw [toggleForest, if_pos rfl, if_neg hcv] at h
      simp only [Option.some.injEq, Prod.mk.injEq] at h
      obtain ⟨h1, h2, h3⟩ := h
      have hv : v = false := by
        cases v with
        | false => rfl
        | true => exact absurd (by simp) hcv
      refine ⟨?_, ?_⟩
      · intro hinv
        rw [← h1]
        simp only [forestInv, Bool.and_eq_true] at hinv
        simp [forestInv, hv, hinv.1.2, hinv.2]
      · intro hact; rw [← h3] at hact; simp at hact
  | case4 i d c subs ts hne subs' ch act hsubs ih =>
      intro ts'' ch'' act'' h
      rw [toggleForest, if_neg hne, hsubs, Option.some.injEq] at h
      have h1 : (toggleStepUp i d c subs' ts ch act).1 = ts'' := by rw [h]
      have h3 : (toggleStepUp i d c subs' ts ch act).2.2 = act'' := by rw [h]
      obtain ⟨hinv_sub, hmap_sub⟩ := ih subs' ch act hsubs
      refine ⟨?_, ?_⟩
      · intro hinv
        simp only [forestInv, Bool.and_eq_true] at hinv
        rw [← h1]
        refine toggleStepUp_inv i d c subs' ts ch act
          (hinv_sub hinv.1.2) hinv.2 ?_
        intro hact
        have hmap := hmap_sub hact
        have hall := all_congr_of_map_eq (fun x => x.completed) subs' subs hmap
        rw [hall]
        exact hinv.1.1
      · intro hact
        rw [← h3] at hact
        rw [← h1, toggleStepUp_stopped_map i d c subs' ts ch act hact]
        simp
  | case5 i d c subs ts hne hsubs ts' ch act hts ih1 ih2 =>
      intro ts'' ch'' act'' h
      rw [toggleForest, if_neg hne, hsubs, hts] at h
      simp only [Option.some.injEq, Prod.mk.injEq] at h
      obtain ⟨h1, h2, h3⟩ := h
      obtain ⟨hinv_ts, hmap_ts⟩ := ih2 ts' ch act hts
      refine ⟨?_, ?_⟩
      · intro hinv
        rw [← h1]
        simp only [forestInv, Bool.and_eq_true] at hinv ⊢
        exact ⟨⟨hinv.1.1, hinv.1.2⟩, hinv_ts hinv.2⟩
      · intro hact
        rw [← h3] at hact
        rw [← h1]
        simp [hmap_ts hact]
  | case6 i d c subs ts hne hsubs hts =>
      intro ts'' ch'' act'' h
      rw [toggleForest, if_neg hne, hsubs, hts] at h
      simp at h

/-- A single cascaded toggle preserves the downward completion invariant. -/
theorem toggleCompletion_preserves_forestInv (forest : List Task)
    (target : Nat) (v : Bool) (h : forestInv forest = true) :
    forestInv (toggleCompletion forest target v true).1 = true := by
  unfold toggleCompletion
  cases hres : toggleForest target v true forest with
  | none => simpa
  | some r =>
      obtain ⟨f, ch, act⟩ := r
      simpa using
        (toggleForest_preserves_forestInv target v forest f ch act hres).1 h

/-- C1 counterexample: the tree `A(completed) → B(completed)` satisfies the
claimed iff-invariant, yet after the single cascaded call
`toggleCompletion(A, false, cascade=true)` the parent `A` is false while its
only child `B` is still true (the spec cascades downward only when the new
value is true), so a task with children violates
`completed == (all children completed)` after a call completes. -/
theorem C1_counterexample_toggle_false :
    forestFullInv [Task.mk 1 "A" true [Task.mk 2 "B" true []]] = true ∧
    forestFullInv (applyToggles [Task.mk 1 "A" true [Task.mk 2 "B" true []]]
        [(1, false)]) = false := by
  constructor
  · simp [forestFullInv]
  · simp [applyToggles, toggleCompletion, toggleForest, toggleStepUp,
      forestFullInv]

/-- C1 (amended): for every forest and every sequence of cascaded
`toggleCompletion` calls, the *downward* half of the invariant is preserved
after each call — every completed task has all of its direct children
completed.  (The converse direction of the claimed iff is not maintained: a
cascaded toggle to `false` leaves descendants untouched, see the
counterexample.) -/
theorem C1_cascade_preserves_downward_invariant (forest : List Task)
    (ops : List (Nat × Bool)) (h : forestInv forest = true) :
    forestInv (applyToggles forest ops) = true := by
  induction ops generalizing forest with
  | nil => simpa [applyToggles]
  | cons op ops ih =>
      obtain ⟨t, v⟩ := op
      rw [applyToggles]
      exact ih _ (toggleCompletion_preserves_forestInv forest t v h)

/-- C1 witness: a concrete two-level forest and a concrete three-call toggle
sequence (complete the parent, un-complete it, complete the child). -/
theorem C1_cascade_preserves_downward_invariant_witness :
    forestInv [Task.mk 1 "A" false [Task.mk 2 "B" false []]] = true ∧
    forestInv (applyToggles [Task.mk 1 "A" false [Task.mk 2 "B" false []]]
        [(1, true), (1, false), (2, true)]) = true :=
  ⟨by simp [forestInv],
   C1_cascade_preserves_downward_invariant
     [Task.mk 1 "A" false [Task.mk 2 "B" false []]]
     [(1, true), (1, false), (2, true)] (by simp [forestInv])⟩

/-- The pre-order flattening enumerates exactly as many tasks as the forest
holds. -/
theorem preorderForest_length (ts : List Task) :
    (preorderForest ts).length = sizeForest ts := by
  induction ts using preorderForest.induct with
  | case1 => simp [preorderForest, sizeForest]
  | case2 i d c subs ts ih1 ih2 =>
      simp [preorderForest, sizeForest, ih1, ih2]
      omega

/-- `toggleForest` fails to find the target exactly when `findTaskInList`
does. -/
theorem toggleForest_none_iff (target : Nat) (v casc : Bool) (ts : List Task) :
    toggleForest target v casc ts = none ↔ findTaskInList target ts = none := by
  induction ts using toggleForest.induct target v casc with
  | case1 => simp [toggleForest, findTaskInList]
  | case2 d c subs ts hcv =>
      rw [toggleForest, if_pos rfl, if_pos hcv, findTaskInList, if_pos rfl]
      simp
  | case3 d c subs ts hcv =>
      rw [toggleForest, if_pos rfl, if_neg hcv, findTaskInList, if_pos rfl]
      simp
  | case4 i d c subs ts hne subs' ch act hsubs ih =>
      rw [toggleForest, if_neg hne, hsubs, findTaskInList, if_neg hne]
      have hfs : findTaskInList target subs ≠ none := by
        intro hnone
        rw [← ih] at hnone
        rw [hnone] at hsubs
        exact Option.noConfusion hsubs
      cases hf : findTaskInList target subs with
      | none => exact absurd hf hfs
      | some t => simp
  | case5 i d c subs ts hne hsubs ts' ch act hts ih1 ih2 =>
      rw [toggleForest, if_neg hne, hsubs, hts, findTaskInList, if_neg hne]
      rw [ih1.mp hsubs]
      have hft : findTaskInList target ts ≠ none := by
        intro hnone
        rw [← ih2] at hnone
        rw [hnone] at hts
        exact Option.noConfusion hts
      cases hf : findTaskInList target ts with
      | none => exact absurd hf hft
      | some t => simp
  | case6 i d c subs ts hne hsubs hts ih1 ih2 =>
      rw [toggleForest, if_neg hne, hsubs, hts, findTaskInList, if_neg hne]
      rw [ih1.mp hsubs, ih2.mp hts]
      simp

/-- The pairs emitted by `toggleStepUp` are the pairs emitted below, possibly
followed by one pair for this ancestor. -/
theorem toggleStepUp_changed (i : Nat) (d : String) (c : Bool)
    (subs' ts : List Task) (ch : List (Nat × Bool)) (act : Bool) :
    (toggleStepUp i d c subs' ts ch act).2.1 = ch ∨
    ∃ p, (toggleStepUp i d c subs' ts ch act).2.1 = ch ++ [p] := by
  cases act with
  | false => left; simp [toggleStepUp]
  | true =>
      by_cases hall : subs'.all (fun x => x.completed) = true
      · cases c with
        | true => left; simp [toggleStepUp, hall]
        | false => right; exact ⟨(i, true), by simp [toggleStepUp, hall]⟩
      · have hany := any_not_completed_of_all_false subs' hall
        cases c with
        | true => right; exact ⟨(i, false), by simp [toggleStepUp, hall, hany]⟩
        | false => left; simp [toggleStepUp, hall, hany]

/-- Shape of the pairs emitted by a cascaded toggle to `true`: one pair for
the target task and each of its descendants (in pre-order, all `true`),
followed by the ancestor pairs. -/
theorem toggleForest_changed_structure (target : Nat) (ts : List Task) :
    ∀ ts' ch act, toggleForest target true true ts = some (ts', ch, act) →
      ∃ t anc, findTaskInList target ts = some t ∧
        ch = (preorderForest [t]).map (fun x => (x.id, true)) ++ anc := by
  induction ts using toggleForest.induct target true true with
  | case1 => intro ts' ch act h; simp [toggleForest] at h
  | case2 d c subs ts hcv =>
      intro ts' ch act h
      rw [toggleForest, if_pos rfl, if_pos hcv] at h
      simp only [Option.some.injEq, Prod.mk.injEq] at h
      exact ⟨Task.mk target d c subs, [],
        by rw [findTaskInList, if_pos rfl], by rw [← h.2.1]; simp⟩
  | case3 d c subs ts hcv => exact absurd (by simp) hcv
  | case4 i d c subs ts hne subs' ch act hsubs ih =>
      intro ts'' ch'' act'' h
      rw [toggleForest, if_neg hne, hsubs, Option.some.injEq] at h
      have h2 : (toggleStepUp i d c subs' ts ch act).2.1 = ch'' := by rw [h]
      obtain ⟨t, anc, hfind, hch⟩ := ih subs' ch act hsubs
      rcases toggleStepUp_changed i d c subs' ts ch act with hc | ⟨p, hc⟩
      · refine ⟨t, anc, ?_, ?_⟩
        · rw [findTaskInList, if_neg hne, hfind]
        · rw [← h2, hc, hch]
      · refine ⟨t, anc ++ [p], ?_, ?_⟩
        · rw [findTaskInList, if_neg hne, hfind]
        · rw [← h2, hc, hch, List.append_assoc]
  | case5 i d c subs ts hne hsubs ts' ch act hts ih1 ih2 =>
      intro ts'' ch'' act'' h
      rw [toggleForest, if_neg hne, hsubs, hts] at h
      simp only [Option.some.injEq, Prod.mk.injEq] at h
      obtain ⟨t, anc, hfind, hch⟩ := ih2 ts' ch act hts
      refine ⟨t, anc, ?_, ?_⟩
      · rw [findTaskInList, if_neg hne,
          (toggleForest_none_iff target true true subs).mp hsubs, hfind]
      · rw [← h.2.1, hch]
  | case6 i d c subs ts hne hsubs hts ih1 ih2 =>
      intro ts'' ch'' act'' h
      rw [toggleForest, if_neg hne, hsubs, hts] at h
      simp at h

/-- C2 counterexample: in the forest `A(incomplete) → [B(complete),
C(incomplete)]` the target `C` has `N = 0` descendants, yet
`toggleCompletion(C, true, cascade=true)` emits 2 pairs, not `N+1 = 1`: the
upward re-derivation also flips the ancestor `A` and emits a pair for it. -/
theorem C2_counterexample_ancestor_pairs :
    findTaskInList 3
        [Task.mk 1 "A" false [Task.mk 2 "B" true [], Task.mk 3 "C" false []]]
      = some (Task.mk 3 "C" false []) ∧
    (Task.mk 3 "C" false []).subtasks = [] ∧
    (toggleCompletion
        [Task.mk 1 "A" false [Task.mk 2 "B" true [], Task.mk 3 "C" false []]]
        3 true true).2
      = [(3, true), (1, true)] := by
  refine ⟨?_, rfl, ?_⟩
  · simp [findTaskInList]
  · simp [toggleCompletion, toggleForest, toggleStepUp, preorderForest,
      forceTrueForest]

/-- C2 (amended): for every forest, a cascaded toggle of a found task `t` to
`true` emits the pair list that starts with exactly `N+1` pairs — the task
itself and each of its `N` descendants, all carrying the value `true` —
followed by the pairs of whichever ancestors the upward re-derivation
changed (possibly none); the `N+1` downward pairs are emitted regardless of
the prior completion state. -/
theorem C2_downward_pairs_all_true (forest : List Task) (target : Nat)
    (t : Task) (hfound : findTaskInList target forest = some t) :
    ∃ anc, (toggleCompletion forest target true true).2
        = (preorderForest [t]).map (fun x => (x.id, true)) ++ anc ∧
      ((preorderForest [t]).map (fun x => (x.id, true))).length
        = 1 + sizeForest t.subtasks ∧
      ∀ p ∈ (preorderForest [t]).map (fun x => (x.id, true)), p.2 = true := by
  have hlen : ((preorderForest [t]).map (fun x => (x.id, true))).length
      = 1 + sizeForest t.subtasks := by
    rw [List.length_map, preorderForest_length]
    cases t with
    | mk i d c subs => simp [sizeForest]
  have htrue : ∀ p ∈ (preorderForest [t]).map (fun x => (x.id, true)),
      p.2 = true := by
    intro p hp
    rw [List.mem_map] at hp
    obtain ⟨x, hx, hpx⟩ := hp
    rw [← hpx]
  unfold toggleCompletion
  cases hres : toggleForest target true true forest with
  | none =>
      rw [(toggleForest_none_iff target true true forest).mp hres] at hfound
      exact Option.noConfusion hfound
  | some r =>
      obtain ⟨f, ch, act⟩ := r
      obtain ⟨t', anc, hfind, hch⟩ :=
        toggleForest_changed_structure target forest f ch act hres
      rw [hfound] at hfind
      have ht : t' = t := (Option.some.inj hfind).symm
      subst ht
      exact ⟨anc, by simpa using hch, hlen, htrue⟩

/-- C2 witness: toggling task 3 (no descendants) in a concrete forest whose
ancestor also flips. -/
theorem C2_downward_pairs_all_true_witness :
    ∃ anc, (toggleCompletion
        [Task.mk 1 "A" false [Task.mk 2 "B" true [], Task.mk 3 "C" false []]]
        3 true true).2
      = (preorderForest [Task.mk 3 "C" false []]).map (fun x => (x.id, true))
          ++ anc ∧
      ((preorderForest [Task.mk 3 "C" false []]).map
          (fun x => (x.id, true))).length
        = 1 + sizeForest (Task.mk 3 "C" false []).subtasks ∧
      ∀ p ∈ (preorderForest [Task.mk 3 "C" false []]).map
          (fun x => (x.id, true)), p.2 = true :=
  C2_downward_pairs_all_true
    [Task.mk 1 "A" false [Task.mk 2 "B" true [], Task.mk 3 "C" false []]]
    3 (Task.mk 3 "C" false []) (by simp [findTaskInList])

/-! ## Lists, selection state and the sync reconciler (`Dashboard.jsx`) -/

/-- A todo list (collection) as delivered by `GET /api/lists`: an id, a name
and the ordered top-level tasks with the full hierarchy embedded. -/
structure TodoList where
  id : Nat
  name : String
  tasks : List Task
deriving Repr

/-- The client's selection state: the currently selected list and the
currently selected task (`selectedList` / `selectedTask` in `Dashboard.jsx`),
both held as whole objects, reconciled by id after each refresh. -/
structure Selection where
  selectedList : Option TodoList
  selectedTask : Option Task
deriving Repr

/-- The selection-sync effect of `Dashboard.jsx` (the `useEffect` keyed on
`lists`) as a pure function of the freshly fetched lists and the previous
selection: when a list is selected and the new lists are non-empty, look the
selected list up by id; when found, replace the selected list by the fresh
object and, when a task was selected, search the fresh list's forest for its
id, replacing the selected task only when found.  All other branches leave
the previous selection untouched. -/
def syncSelection (lists : List TodoList) (sel : Selection) : Selection :=
  match sel.selectedList with
  | none => sel
  | some sl =>
    if lists.length > 0 then
      match lists.find? (fun l => l.id == sl.id) with
      | some updatedList =>
          match sel.selectedTask with
          | none => { selectedList := some updatedList, selectedTask := none }
          | some st =>
              match findTaskInList st.id updatedList.tasks with
              | some updatedTask =>
                  { selectedList := some updatedList, selectedTask := some updatedTask }
              | none =>
                  { selectedList := some updatedList, selectedTask := some st }
      | none => sel
    else sel

/-- C3 counterexample: the freshly fetched forest still contains the selected
list (id 1) but its task hierarchy no longer contains the selected task
(id 5); the reconciliation effect keeps the stale task object instead of
clearing the task selection to `null` as the claim states. -/
theorem C3_counterexample_stale_task_kept :
    findTaskInList 5 (TodoList.mk 1 "School" []).tasks = none ∧
    (syncSelection [TodoList.mk 1 "School" []]
        (Selection.mk (some (TodoList.mk 1 "School" [Task.mk 5 "old" false []]))
          (some (Task.mk 5 "old" false [])))).selectedTask
      = some (Task.mk 5 "old" false []) := by
  constructor
  · simp [findTaskInList]
  · simp [syncSelection, findTaskInList]

/-- C3 (amended): when the previously selected list id is found in the fresh
lists but the previously selected task id is not found anywhere in that
list's task hierarchy, the reconciliation preserves the list selection
(updating it to the fresh list object) and leaves the task selection
unchanged — the stale task object is kept, it is not set to `null`. -/
theorem C3_reconcile_missing_task (lists : List TodoList) (sel : Selection)
    (sl l : TodoList) (st : Task)
    (hsl : sel.selectedList = some sl)
    (hst : sel.selectedTask = some st)
    (hfound : lists.find? (fun x => x.id == sl.id) = some l)
    (hmissing : findTaskInList st.id l.tasks = none) :
    syncSelection lists sel = Selection.mk (some l) (some st) := by
  have hne : lists ≠ [] := by
    intro h; rw [h] at hfound; simp at hfound
  have hlen : 0 < lists.length := List.length_pos.mpr hne
  simp [syncSelection, hsl, hst, hfound, hmissing, hlen]

/-- C3 witness: a fresh forest where list 1 survives but task 7 is gone. -/
theorem C3_reconcile_missing_task_witness :
    syncSelection [TodoList.mk 1 "L" [Task.mk 2 "a" false []]]
        (Selection.mk (some (TodoList.mk 1 "L" [])) (some (Task.mk 7 "b" true [])))
      = Selection.mk (some (TodoList.mk 1 "L" [Task.mk 2 "a" false []]))
          (some (Task.mk 7 "b" true [])) :=
  C3_reconcile_missing_task
    [TodoList.mk 1 "L" [Task.mk 2 "a" false []]]
    (Selection.mk (some (TodoList.mk 1 "L" [])) (some (Task.mk 7 "b" true [])))
    (TodoList.mk 1 "L" []) (TodoList.mk 1 "L" [Task.mk 2 "a" false []])
    (Task.mk 7 "b" true []) rfl rfl (by simp) (by simp [findTaskInList])

/-- C4 counterexample: the freshly fetched lists do not contain the selected
list id (1); the reconciliation effect keeps the stale list object instead of
clearing the list selection to `null` as the claim states. -/
theorem C4_counterexample_stale_list_kept :
    ([TodoList.mk 2 "Work" []].find? (fun l => l.id == 1) = none) ∧
    (syncSelection [TodoList.mk 2 "Work" []]
        (Selection.mk (some (TodoList.mk 1 "Home" [])) none)).selectedList
      = some (TodoList.mk 1 "Home" []) := by
  constructor
  · simp
  · simp [syncSelection]

/-- C4 (amended): the reconciliation looks the selected list up in the fresh
lists by identifier equality (never by object identity): when some fresh list
carries the selected id, that fresh object becomes the selection; but when
the id is absent the whole selection is left unchanged — the stale list
object is kept, it is not set to `null`. -/
theorem C4_reconcile_list_by_id (lists : List TodoList) (sel : Selection)
    (sl : TodoList) (hsl : sel.selectedList = some sl) :
    (lists.find? (fun l => l.id == sl.id) = none → syncSelection lists sel = sel) ∧
    (∀ l, lists.find? (fun l => l.id == sl.id) = some l →
      (syncSelection lists sel).selectedList = some l) := by
  constructor
  · intro hnone
    cases lists with
    | nil => simp [syncSelection, hsl]
    | cons x xs => simp [syncSelection, hsl, hnone]
  · intro l hfound
    have hne : lists ≠ [] := by
      intro h; rw [h] at hfound; simp at hfound
    have hlen : 0 < lists.length := List.length_pos.mpr hne
    cases hst : sel.selectedTask with
    | none => simp [syncSelection, hsl, hst, hfound, hlen]
    | some st =>
        cases hf : findTaskInList st.id l.tasks with
        | none => simp [syncSelection, hsl, hst, hfound, hf, hlen]
        | some u => simp [syncSelection, hsl, hst, hfound, hf, hlen]

/-- C4 witness: id 3 present as a fresh object (positive branch) and id 3
absent (negative branch) on concrete lists. -/
theorem C4_reconcile_list_by_id_witness :
    (([] : List TodoList).find? (fun l => l.id == 3) = none →
      syncSelection [] (Selection.mk (some (TodoList.mk 3 "S" [])) none)
        = Selection.mk (some (TodoList.mk 3 "S" [])) none) ∧
    (∀ l, [TodoList.mk 3 "fresh" []].find? (fun l => l.id == 3) = some l →
      (syncSelection [TodoList.mk 3 "fresh" []]
          (Selection.mk (some (TodoList.mk 3 "S" [])) none)).selectedList = some l) :=
  ⟨(C4_reconcile_list_by_id [] (Selection.mk (some (TodoList.mk 3 "S" [])) none)
      (TodoList.mk 3 "S" []) rfl).1,
   (C4_reconcile_list_by_id [TodoList.mk 3 "fresh" []]
      (Selection.mk (some (TodoList.mk 3 "S" [])) none)
      (TodoList.mk 3 "S" []) rfl).2⟩

/-! ## Shallow task counts (`getTaskCounts` in `Dashboard.jsx`) -/

/-- The pair of tab badge counts shown for the selected list. -/
structure TaskCounts where
  active : Nat
  completed : Nat
deriving Repr, DecidableEq

/-- `getTaskCounts` from `Dashboard.jsx`: with no selected list both counts
are 0; otherwise count the selected list's top-level tasks by their
`completed` flag (`allTasks.filter(...).length` over `selectedList.tasks`
only — descendants are never consulted). -/
def getTaskCounts (selectedList : Option TodoList) : TaskCounts :=
  match selectedList with
  | none => TaskCounts.mk 0 0
  | some l =>
      TaskCounts.mk
        (l.tasks.filter (fun task => !task.completed)).length
        (l.tasks.filter (fun task => task.completed)).length

/-- C6: `countByStatus` (the `getTaskCounts` of `Dashboard.jsx`) counts only
the immediate top-level tasks of the selected list — `active` is the number
with `completed = false` and `completed` the number with `completed = true`;
replacing every task's subtask forest arbitrarily never changes the counts;
and for a list of two top-level tasks, one incomplete and one complete, the
result is `{active := 1, completed := 1}` whatever their subtasks hold. -/
theorem C6_counts_are_shallow (l : TodoList) (g : Task → List Task)
    (i : Nat) (n : String) (t1 t2 : Task) :
    getTaskCounts (some l) =
      TaskCounts.mk (l.tasks.countP (fun t => !t.completed))
        (l.tasks.countP (fun t => t.completed)) ∧
    getTaskCounts (some (TodoList.mk l.id l.name
        (l.tasks.map (fun t => Task.mk t.id t.description t.completed (g t)))))
      = getTaskCounts (some l) ∧
    (t1.completed = false → t2.completed = true →
      getTaskCounts (some (TodoList.mk i n [t1, t2])) = TaskCounts.mk 1 1) := by
  refine ⟨?_, ?_, ?_⟩
  · simp [getTaskCounts, List.countP_eq_length_filter]
  · simp [getTaskCounts, List.filter_map, Function.comp_def]
  · intro h1 h2
    simp [getTaskCounts, List.filter_cons, h1, h2]

/-- C6 witness: two concrete top-level tasks, the incomplete one carrying a
fully completed subtask and the complete one an incomplete subtask. -/
theorem C6_counts_are_shallow_witness :
    getTaskCounts (some (TodoList.mk 1 "L"
        [Task.mk 2 "a" false [Task.mk 4 "s" true []],
         Task.mk 3 "b" true [Task.mk 5 "t" false []]])) = TaskCounts.mk 1 1 :=
  (C6_counts_are_shallow (TodoList.mk 1 "L" []) (fun _ => []) 1 "L"
      (Task.mk 2 "a" false [Task.mk 4 "s" true []])
      (Task.mk 3 "b" true [Task.mk 5 "t" false []])).2.2 rfl rfl

/-! ## Network requests and the client state machine (`Dashboard.jsx`) -/

/-- HTTP method of an API request issued by the client. -/
inductive HttpMethod where
  | get
  | post
  | put
  | delete
deriving Repr, DecidableEq

/-- A request issued through `fetch` in `Dashboard.jsx`: method, URL and the
JSON body rendered as key/value pairs. -/
structure ApiRequest where
  method : HttpMethod
  url : String
  body : List (String × String)
deriving Repr

/-- Outcome of one `fetch` round trip as `Dashboard.jsx` distinguishes them:
a successful response carrying data (`response.ok`), a non-ok HTTP response,
or a thrown network error (the `catch` branch). -/
inductive ApiResponse (α : Type) where
  | ok (data : α)
  | httpError (status : Nat)
  | networkError
deriving Repr

/-- Whether the response took the `response.ok` branch. -/
def ApiResponse.isOk {α : Type} : ApiResponse α → Bool
  | .ok _ => true
  | _ => false

/-- The client state touched by the handlers under study: the fetched lists,
the two selection references and the per-task collapse flags
(`lists`, `selectedList`, `selectedTask`, `collapsedTasks` in
`Dashboard.jsx`). -/
structure DashboardState where
  lists : List TodoList
  selectedList : Option TodoList
  selectedTask : Option Task
  collapsedTasks : List (Nat × Bool)
deriving Repr

/-- `fetchLists` from `Dashboard.jsx` as a state transition on the arrival of
its response: on `response.ok` the payload replaces `lists` wholesale and,
when the payload is non-empty and no list was selected, the first list is
auto-selected; on a non-ok response or a thrown error nothing is changed
(the `catch` only logs). -/
def fetchListsApply (s : DashboardState) (r : ApiResponse (List TodoList)) :
    DashboardState :=
  match r with
  | .ok data =>
      match data, s.selectedList with
      | d :: ds, none =>
          { s with lists := d :: ds, selectedList := some d }
      | _, _ => { s with lists := data }
  | _ => s

/-- The PUT request built by `handleToggleTask` in `Dashboard.jsx`:
`PUT /api/tasks/:id` with body `{completed: !currentStatus, cascade}`. -/
def handleToggleTaskRequest (taskId : Nat) (currentStatus cascade : Bool) :
    ApiRequest :=
  ApiRequest.mk .put ("http://127.0.0.1:5000/api/tasks/" ++ toString taskId)
    [("completed", toString (!currentStatus)), ("cascade", toString cascade)]

/-- `handleToggleTask` from `Dashboard.jsx` as a state transition: on a
successful PUT it triggers `fetchLists`, whose own response is `refresh`;
on a failed PUT (non-ok or thrown) nothing is changed. -/
def handleToggleTaskApply (s : DashboardState) (r : ApiResponse Unit)
    (refresh : ApiResponse (List TodoList)) : DashboardState :=
  match r with
  | .ok _ => fetchListsApply s refresh
  | _ => s

/-- C7: a failed fetch or mutate call leaves the previously rendered tree
(and the whole client state) unchanged: a non-ok or thrown `fetchLists`
response changes nothing, a failed toggle PUT changes nothing, and even
after a successful toggle a failed refresh leaves the lists as they were —
the new forest is applied only on a successful response. -/
theorem C7_failure_preserves_tree (s : DashboardState)
    (r refresh : ApiResponse (List TodoList)) (tr : ApiResponse Unit)
    (hr : r.isOk = false) (htr : tr.isOk = false)
    (hrefresh : refresh.isOk = false) :
    fetchListsApply s r = s ∧
    handleToggleTaskApply s tr refresh = s ∧
    handleToggleTaskApply s (ApiResponse.ok ()) refresh = s := by
  refine ⟨?_, ?_, ?_⟩
  · cases r with
    | ok d => simp [ApiResponse.isOk] at hr
    | httpError st => simp [fetchListsApply]
    | networkError => simp [fetchListsApply]
  · cases tr with
    | ok u => simp [ApiResponse.isOk] at htr
    | httpError st => simp [handleToggleTaskApply]
    | networkError => simp [handleToggleTaskApply]
  · cases refresh with
    | ok d => simp [ApiResponse.isOk] at hrefresh
    | httpError st => simp [handleToggleTaskApply, fetchListsApply]
    | networkError => simp [handleToggleTaskApply, fetchListsApply]

/-- C7 witness: a concrete state and concrete failing responses. -/
theorem C7_failure_preserves_tree_witness :
    fetchListsApply (DashboardState.mk [TodoList.mk 1 "L" []] none none [])
        (ApiResponse.httpError 500)
      = DashboardState.mk [TodoList.mk 1 "L" []] none none [] ∧
    handleToggleTaskApply (DashboardState.mk [TodoList.mk 1 "L" []] none none [])
        ApiResponse.networkError (ApiResponse.httpError 500)
      = DashboardState.mk [TodoList.mk 1 "L" []] none none [] ∧
    handleToggleTaskApply (DashboardState.mk [TodoList.mk 1 "L" []] none none [])
        (ApiResponse.ok ()) (ApiResponse.httpError 500)
      = DashboardState.mk [TodoList.mk 1 "L" []] none none [] :=
  C7_failure_preserves_tree (DashboardState.mk [TodoList.mk 1 "L" []] none none [])
    (ApiResponse.httpError 500) (ApiResponse.httpError 500) ApiResponse.networkError
    rfl rfl rfl

/-- Applying a sequence of completed `fetchLists` responses in completion
order: `Dashboard.jsx` runs `setLists(data)` for every `response.ok` arrival,
with no request identity, sequence number or abort signal attached. -/
def applyFetchResponses (s : DashboardState) :
    List (ApiResponse (List TodoList)) → DashboardState
  | [] => s
  | r :: rs => applyFetchResponses (fetchListsApply s r) rs

/-- The payload of the last successful response in a completion-ordered
sequence, if any. -/
def lastOkData : List (ApiResponse (List TodoList)) → Option (List TodoList)
  | [] => none
  | r :: rs =>
      match lastOkData rs with
      | some d => some d
      | none =>
          match r with
          | .ok d => some d
          | _ => none

/-- On a successful response the lists are replaced by the payload. -/
theorem fetchListsApply_ok_lists (s : DashboardState) (d : List TodoList) :
    (fetchListsApply s (ApiResponse.ok d)).lists = d := by
  cases d with
  | nil => simp [fetchListsApply]
  | cons x xs =>
      cases h : s.selectedList with
      | none => simp [fetchListsApply, h]
      | some l => simp [fetchListsApply, h]

/-- On a failed response the lists are unchanged. -/
theorem fetchListsApply_fail_lists (s : DashboardState)
    (r : ApiResponse (List TodoList)) (h : r.isOk = false) :
    (fetchListsApply s r).lists = s.lists := by
  cases r with
  | ok d => simp [ApiResponse.isOk] at h
  | httpError st => simp [fetchListsApply]
  | networkError => simp [fetchListsApply]

/-- C9 counterexample: fetch 1 is issued, then fetch 2; fetch 2 (the newer
fetch, carrying list 2) completes and is applied first, and fetch 1's stale
response (carrying list 1) completes afterwards.  The code applies the stale
payload over the newer one — the client ends holding list 1, not the newer
fetch's list 2, so the stale in-flight response is not discarded. -/
theorem C9_counterexample_stale_overwrite :
    (applyFetchResponses (DashboardState.mk [] none none [])
        [ApiResponse.ok [TodoList.mk 2 "newer" []],
         ApiResponse.ok [TodoList.mk 1 "stale" []]]).lists
      = [TodoList.mk 1 "stale" []] ∧
    [TodoList.mk 1 "stale" []] ≠ [TodoList.mk 2 "newer" []] := by
  constructor
  · simp [applyFetchResponses, fetchListsApply]
  · intro h
    simp only [List.cons.injEq, TodoList.mk.injEq] at h
    omega

/-- C9 (amended): the client ends holding the payload of whichever successful
response completed last — last completion wins, whatever order the fetches
were issued in; a stale in-flight response that completes after a newer one
has already been applied overwrites it rather than being discarded. -/
theorem C9_last_completed_response_wins (s : DashboardState)
    (rs : List (ApiResponse (List TodoList))) :
    (applyFetchResponses s rs).lists = (lastOkData rs).getD s.lists := by
  induction rs generalizing s with
  | nil => simp [applyFetchResponses, lastOkData]
  | cons r rs ih =>
      rw [applyFetchResponses, ih]
      cases hlast : lastOkData rs with
      | some d => simp [lastOkData, hlast]
      | none =>
          cases r with
          | ok d => simp [lastOkData, hlast, fetchListsApply_ok_lists]
          | httpError st => simp [lastOkData, hlast, fetchListsApply]
          | networkError => simp [lastOkData, hlast, fetchListsApply]

/-- The DELETE request built by `handleDeleteTask` in `Dashboard.jsx`. -/
def handleDeleteTaskRequest (taskId : Nat) : ApiRequest :=
  ApiRequest.mk .delete ("http://127.0.0.1:5000/api/tasks/" ++ toString taskId) []

/-- `handleDeleteTask` from `Dashboard.jsx` as a function from the
confirmation-dialog outcome and the DELETE response to the issued request and
the handler's own state updates: when the user cancels the confirm dialog
nothing is issued and nothing changes; otherwise the DELETE is issued and,
on success, `setSelectedTask(null)` runs — unconditionally, with no
comparison between `taskId` and the current selection — while the triggered
`fetchLists` refresh is a separate transition (`fetchListsApply`).  On a
failed DELETE nothing changes. -/
def handleDeleteTaskApply (taskId : Nat) (confirmed : Bool)
    (s : DashboardState) (r : ApiResponse Unit) :
    Option ApiRequest × DashboardState :=
  if confirmed then
    match r with
    | .ok _ => (some (handleDeleteTaskRequest taskId), { s with selectedTask := none })
    | _ => (some (handleDeleteTaskRequest taskId), s)
  else (none, s)

/-- C10: after every successful (confirmed) task deletion the handler sets the
selected-task reference to `none` unconditionally — even when the deleted id
differs from the selected task's id — and changes nothing else: the selected
list, the collapse flags and the lists are all left exactly as they were. -/
theorem C10_delete_clears_task_selection (taskId : Nat) (s : DashboardState)
    (u : Unit) (t : Task) (hsel : s.selectedTask = some t)
    (hne : t.id ≠ taskId) :
    (handleDeleteTaskApply taskId true s (ApiResponse.ok u)).2.selectedTask = none ∧
    (handleDeleteTaskApply taskId true s (ApiResponse.ok u)).2.selectedList = s.selectedList ∧
    (handleDeleteTaskApply taskId true s (ApiResponse.ok u)).2.collapsedTasks = s.collapsedTasks ∧
    (handleDeleteTaskApply taskId true s (ApiResponse.ok u)).2.lists = s.lists := by
  refine ⟨?_, ?_, ?_, ?_⟩ <;> simp [handleDeleteTaskApply]

/-- C10 witness: deleting task 9 while task 2 (a different task) is selected
still clears the task selection and touches nothing else. -/
theorem C10_delete_clears_task_selection_witness :
    (handleDeleteTaskApply 9 true
        (DashboardState.mk [TodoList.mk 1 "L" []] (some (TodoList.mk 1 "L" []))
          (some (Task.mk 2 "t" false [])) [(2, true)])
        (ApiResponse.ok ())).2.selectedTask = none ∧
    (handleDeleteTaskApply 9 true
        (DashboardState.mk [TodoList.mk 1 "L" []] (some (TodoList.mk 1 "L" []))
          (some (Task.mk 2 "t" false [])) [(2, true)])
        (ApiResponse.ok ())).2.selectedList = some (TodoList.mk 1 "L" []) ∧
    (handleDeleteTaskApply 9 true
        (DashboardState.mk [TodoList.mk 1 "L" []] (some (TodoList.mk 1 "L" []))
          (some (Task.mk 2 "t" false [])) [(2, true)])
        (ApiResponse.ok ())).2.collapsedTasks = [(2, true)] :=
  ⟨(C10_delete_clears_task_selection 9
      (DashboardState.mk [TodoList.mk 1 "L" []] (some (TodoList.mk 1 "L" []))
        (some (Task.mk 2 "t" false [])) [(2, true)])
      () (Task.mk 2 "t" false []) rfl (by decide)).1,
   (C10_delete_clears_task_selection 9
      (DashboardState.mk [TodoList.mk 1 "L" []] (some (TodoList.mk 1 "L" []))
        (some (Task.mk 2 "t" false [])) [(2, true)])
      () (Task.mk 2 "t" false []) rfl (by decide)).2.1,
   (C10_delete_clears_task_selection 9
      (DashboardState.mk [TodoList.mk 1 "L" []] (some (TodoList.mk 1 "L" []))
        (some (Task.mk 2 "t" false [])) [(2, true)])
      () (Task.mk 2 "t" false []) rfl (by decide)).2.2.1⟩

/-! ## Create-form validation (`Dashboard.jsx` modals) -/

/-- The POST request built by `handleCreateList` in `Dashboard.jsx`.  The
handler body performs no emptiness check of its own. -/
def handleCreateListRequest (newListName newListDescription : String) :
    ApiRequest :=
  ApiRequest.mk .post "http://127.0.0.1:5000/api/lists"
    [("name", newListName), ("description", newListDescription)]

/-- Submission of the New List modal form: the list-name input carries the
HTML `required` attribute, so the browser blocks form submission — the
submit handler never runs and no request is issued — while the name value is
empty; otherwise `handleCreateList` issues the POST. -/
def submitNewListForm (newListName newListDescription : String) :
    Option ApiRequest :=
  if newListName = "" then none
  else some (handleCreateListRequest newListName newListDescription)

/-- The POST request built by `handleCreateTask` in `Dashboard.jsx`. -/
def handleCreateTaskRequest (listId : Nat) (newTaskDescription : String) :
    ApiRequest :=
  ApiRequest.mk .post
    ("http://127.0.0.1:5000/api/lists/" ++ toString listId ++ "/tasks")
    [("description", newTaskDescription)]

/-- Submission of the New Task modal form: the description textarea carries
the HTML `required` attribute, blocking submission while empty; the handler
additionally returns without issuing anything when no list is selected. -/
def submitNewTaskForm (selectedList : Option TodoList)
    (newTaskDescription : String) : Option ApiRequest :=
  match selectedList with
  | none => none
  | some l =>
      if newTaskDescription = "" then none
      else some (handleCreateTaskRequest l.id newTaskDescription)

/-- C8: a submission with an empty required field is rejected before any
mutating call is issued — an empty list name on list creation and an empty
task description on task creation both produce no network request at all. -/
theorem C8_empty_required_field_no_call (nm d descr : String)
    (sl : Option TodoList) (hnm : nm = "") (hdescr : descr = "") :
    submitNewListForm nm d = none ∧ submitNewTaskForm sl descr = none := by
  constructor
  · simp [submitNewListForm, hnm]
  · cases sl with
    | none => simp [submitNewTaskForm]
    | some l => simp [submitNewTaskForm, hdescr]

/-- C8 witness: concrete empty submissions issue no request. -/
theorem C8_empty_required_field_no_call_witness :
    submitNewListForm "" "some description" = none ∧
    submitNewTaskForm (some (TodoList.mk 1 "L" [])) "" = none :=
  C8_empty_required_field_no_call "" "some description" ""
    (some (TodoList.mk 1 "L" [])) rfl rfl

end Todo
